import Mathlib

/-!
Verification of the Grain-Challenge Codabench evaluation pipeline
(`ingestion_program/ingestion.py` and `scoring_program/score.py`).

The Python code is shallowly embedded: Python dicts become association
lists in insertion order (`List (String × _)`), JSON documents become an
inductive `Json` value, the filesystem contents seen by a run become
explicit arguments (`Option` marks an absent file), raised exceptions
become `Except`, and CPython's exact decimal `round` on floats is
idealised as round-half-to-even over `ℚ` (binary floating-point
representation error is not modelled).
-/

namespace GrainChallenge

/-- JSON values as persisted by the pipeline (`result.json`, `scores.json`).
Python ints and floats are kept apart (`jint` vs `jnum`). -/
inductive Json where
  | jint : Int → Json
  | jnum : Rat → Json
  | jstr : String → Json
  | jobj : List (String × Json) → Json

/-- Field access on a parsed JSON document: `doc[k]` for an object, absent
otherwise. -/
def jsonField (j : Json) (k : String) : Option Json :=
  match j with
  | .jobj fields => fields.lookup k
  | _ => none

/-- Python truthiness of an optional dict/list value: `None` and the empty
collection are falsy (`if not self.ingestion_result: ...`). -/
def pyTruthy {α : Type} : Option (List α) → Bool
  | none => false
  | some l => !l.isEmpty

/-- Round-half-to-even to an integer, the rounding CPython's `round` uses. -/
def roundHalfEven (q : ℚ) : ℤ :=
  if q - (⌊q⌋ : ℚ) < 1/2 then ⌊q⌋
  else if (1 : ℚ)/2 < q - (⌊q⌋ : ℚ) then ⌊q⌋ + 1
  else if ⌊q⌋ % 2 = 0 then ⌊q⌋ else ⌊q⌋ + 1

/-- Python's `round(q, n)`: round to `n` decimal digits, ties to even. -/
def pyRound (q : ℚ) (n : ℕ) : ℚ :=
  (roundHalfEven (q * (10 : ℚ) ^ n) : ℚ) / (10 : ℚ) ^ n

/-- Python's `int()` applied to a real quantity: truncation toward zero. -/
def pyInt (q : ℚ) : ℤ :=
  if 0 ≤ q then ⌊q⌋ else ⌈q⌉

/-- A grain-id → variety map (a Python dict in insertion order). -/
abbrev PredMap := List (String × Int)

/-! ## Scoring stage (`scoring_program/score.py`) -/

/-- One iteration of the counting loop in `Scoring.compute_scores`
(score.py lines 127-134): state is `(correct, total, missing_ground_truth)`. -/
def scoreStep (reference_data : PredMap) (acc : ℕ × ℕ × ℕ) (gp : String × Int) :
    ℕ × ℕ × ℕ :=
  match reference_data.lookup gp.1 with
  | some true_variety =>
      (if gp.2 = true_variety then acc.1 + 1 else acc.1, acc.2.1 + 1, acc.2.2)
  | none => (acc.1, acc.2.1, acc.2.2 + 1)

/-- The whole counting loop of `Scoring.compute_scores`: fold `scoreStep`
over the prediction map's items, starting from `(0, 0, 0)`. -/
def scoreCounts (ingestion_result reference_data : PredMap) : ℕ × ℕ × ℕ :=
  ingestion_result.foldl (scoreStep reference_data) (0, 0, 0)

/-- `Scoring.compute_scores` (score.py lines 104-154): short-circuits to
`{"score": 0.0}` when either map is falsy; otherwise counts correct/total,
computes `accuracy = correct/total` (or `0.0` when `total = 0`) and stores
the four-field record, with `round(accuracy, 6)` and
`round(accuracy * 100, 2)` applied as in the source. -/
def compute_scores (ingestion_result reference_data : Option PredMap) :
    List (String × Json) :=
  if pyTruthy ingestion_result = false then [("score", Json.jnum 0)]
  else if pyTruthy reference_data = false then [("score", Json.jnum 0)]
  else
    let pred := ingestion_result.getD []
    let refd := reference_data.getD []
    let counts := scoreCounts pred refd
    let correct := counts.1
    let total := counts.2.1
    let accuracy : ℚ := if 0 < total then (correct : ℚ) / (total : ℚ) else 0
    [("score", Json.jnum (pyRound accuracy 6)),
     ("correct", Json.jint correct),
     ("total", Json.jint total),
     ("accuracy_percent", Json.jnum (pyRound (accuracy * 100) 2))]

/-- Spec-side count: entries of the prediction map whose grain_id has a
ground-truth entry with the same variety. -/
def specCorrect (ingestion_result reference_data : PredMap) : ℕ :=
  ingestion_result.countP (fun gp => reference_data.lookup gp.1 == some gp.2)

/-- Spec-side count: entries of the prediction map whose grain_id is present
in the reference map. -/
def specTotal (ingestion_result reference_data : PredMap) : ℕ :=
  ingestion_result.countP (fun gp => (reference_data.lookup gp.1).isSome)

/-- Spec-side count: entries of the prediction map with no ground truth. -/
def specMissing (ingestion_result reference_data : PredMap) : ℕ :=
  ingestion_result.countP (fun gp => reference_data.lookup gp.1 == none)

/-- Errors of the scoring stage, named after the spec's taxonomy (§7); in
the code each is a `FileNotFoundError` raise site. -/
inductive ScoringError where
  | missingReference
  | missingPredictions

/-- Decode the `"predictions"` member of `result.json` back into a typed
grain-id → variety map (the values written by ingestion are ints). -/
def decodePredictions : Json → PredMap
  | .jobj fields =>
      fields.filterMap (fun kv =>
        match kv.2 with
        | .jint n => some (kv.1, n)
        | _ => none)
  | _ => []

/-- `Scoring.load_ingestion_result` (score.py lines 75-94), restricted to the
prediction artifact: absent `result.json` raises (FileNotFoundError, the
spec's MissingPredictionsError); otherwise the parsed document's
`result.get('predictions', {})` member becomes the prediction map.
Non-object documents never arise from `save_result` and are not modelled
further than the empty default. -/
def load_ingestion_result (doc : Option Json) : Except ScoringError PredMap :=
  match doc with
  | none => .error .missingPredictions
  | some j => .ok (decodePredictions ((jsonField j "predictions").getD (.jobj [])))

/-- `Scoring.write_scores` (score.py lines 156-172): the scores dict is
serialised as a JSON object; the returned value models the content of
`scores.json` as it re-parses. -/
def write_scores (scores_dict : List (String × Json)) : Json :=
  .jobj scores_dict

/-! ## Ingestion stage (`ingestion_program/ingestion.py`) -/

/-- Does the character-level pattern `'grain'` start here?  Used to
translate Python's `str.replace('grain', '')`. -/
def startsWithGrain : List Char → Bool
  | 'g' :: 'r' :: 'a' :: 'i' :: 'n' :: _ => true
  | _ => false

/-- Does `'grain'` occur anywhere in the character list? -/
def containsGrain : List Char → Bool
  | [] => false
  | c :: cs => startsWithGrain (c :: cs) || containsGrain cs

/-- Fuel-indexed worker for `str.replace('grain', '')`: remove the leftmost
occurrence and continue past it, scanning left to right.  The fuel only
serves structural recursion; `l.length` fuel always suffices. -/
def replaceGrainAux : ℕ → List Char → List Char
  | 0, l => l
  | _ + 1, [] => []
  | fuel + 1, c :: cs =>
    if startsWithGrain (c :: cs) then replaceGrainAux fuel ((c :: cs).drop 5)
    else c :: replaceGrainAux fuel cs

/-- Python's `token.replace('grain', '')`: every non-overlapping occurrence
of `'grain'` is removed, leftmost first. -/
def replaceGrain (l : List Char) : List Char :=
  replaceGrainAux l.length l

/-- `filename.split('_')[0].replace('grain', '')` (ingestion.py line 111):
the text before the first underscore with all `'grain'` occurrences
removed. -/
def grainId (filename : String) : String :=
  String.mk (replaceGrain (filename.data.takeWhile (fun c => c != '_')))

/-- Modelled from the spec's words (§6): "`grain_id` parsed as the text
before the first underscore in the filename, with a fixed literal prefix
stripped", the rest of the token unchanged.  Used to compare the spec's
reading against `grainId`. -/
def specStripGrain : List Char → List Char
  | 'g' :: 'r' :: 'a' :: 'i' :: 'n' :: rest => rest
  | l => l

/-- The spec-side grain id: first-underscore token with the literal front
occurrence of `'grain'` stripped. -/
def specGrainId (filename : String) : String :=
  String.mk (specStripGrain (filename.data.takeWhile (fun c => c != '_')))

/-- Python's `str.endswith`. -/
def strEndsWith (s post : String) : Bool :=
  post.data.isSuffixOf s.data

/-- Content of one `.npz` sample archive: the image array `x` (abstracted to
an arbitrary type) and the optional label array `y`. -/
structure Npz (α : Type) where
  x : α
  y : Option Int

/-- The result lists accumulated by `Ingestion._load_npz_files`. -/
structure NpzLoad (α : Type) where
  X : List α
  y : List Int
  grain_ids : List String

/-- `Ingestion._load_npz_files` (ingestion.py lines 86-119).  `fs` models
the input directory: `none` means the file is absent or `np.load` raises
(both cases skip the file after logging); `some` yields its arrays.  A
loaded file appends its image, its label when `load_labels` and `'y'` is
present, and its parsed grain id, in file order. -/
def loadNpzFiles {α : Type} (fs : String → Option (Npz α)) :
    List String → Bool → NpzLoad α
  | [], _ => ⟨[], [], []⟩
  | f :: rest, load_labels =>
    match fs f with
    | some d =>
        let r := loadNpzFiles fs rest load_labels
        ⟨d.x :: r.X,
         (match load_labels, d.y with
          | true, some yv => yv :: r.y
          | _, _ => r.y),
         grainId f :: r.grain_ids⟩
    | none => loadNpzFiles fs rest load_labels

/-- Errors of the ingestion stage, named after the spec's taxonomy (§7); in
the code this is the `FileNotFoundError` raised when `input_data.csv` is
absent (ingestion.py lines 135-137). -/
inductive IngestionError where
  | missingManifest

/-- The `train_data` / `test_data` dicts built by
`Ingestion.load_train_and_test_data`. -/
structure TrainTest (α : Type) where
  train_X : List α
  train_y : List Int
  train_grain_ids : List String
  test_X : List α
  test_grain_ids : List String

/-- The manifest's `df['filename']` column, in row order (duplicates kept;
`set(...)` membership in the source is list membership here). -/
def manifestFiles (df : List (String × Int)) : List String :=
  df.map Prod.fst

/-- `[f for f in os.listdir(input_dir) if f.endswith('.npz')]`. -/
def discoveredNpz (listing : List String) : List String :=
  listing.filter (fun f => strEndsWith f ".npz")

/-- `[f for f in all_npz_files if f not in train_files]`. -/
def testFilesOf (listing : List String) (df : List (String × Int)) : List String :=
  (discoveredNpz listing).filter (fun f => !((manifestFiles df).contains f))

/-- Body of `Ingestion.load_train_and_test_data` after the manifest check
(ingestion.py lines 139-193): load the manifest's files as training data,
truncate the label column to the number of loaded files, and load the
non-manifest `.npz` files as test data — falling back to the training data
when there are none. -/
def loadBody {α : Type} (fs : String → Option (Npz α)) (listing : List String)
    (df : List (String × Int)) : TrainTest α :=
  let trainLoad := loadNpzFiles fs (manifestFiles df) false
  let y_train := (df.map Prod.snd).take trainLoad.X.length
  if (testFilesOf listing df).isEmpty then
    ⟨trainLoad.X, y_train, trainLoad.grain_ids, trainLoad.X, trainLoad.grain_ids⟩
  else
    let testLoad := loadNpzFiles fs (testFilesOf listing df) false
    ⟨trainLoad.X, y_train, trainLoad.grain_ids, testLoad.X, testLoad.grain_ids⟩

/-- `Ingestion.load_train_and_test_data` (ingestion.py lines 121-193):
raises when `input_data.csv` is absent (`manifest = none`), otherwise runs
`loadBody` on the manifest rows. -/
def load_train_and_test_data {α : Type} (manifest : Option (List (String × Int)))
    (fs : String → Option (Npz α)) (listing : List String) :
    Except IngestionError (TrainTest α) :=
  match manifest with
  | none => .error .missingManifest
  | some df => .ok (loadBody fs listing df)

/-! ## Ingestion result and timer -/

/-- Python-dict insertion `d[k] = v`: update in place when the key exists,
append otherwise (insertion order preserved). -/
def dictInsert {α : Type} : List (String × α) → String → α → List (String × α)
  | [], k, v => [(k, v)]
  | (k', v') :: rest, k, v =>
    if k' = k then (k, v) :: rest else (k', v') :: dictInsert rest k v

/-- `self.ingestion_result` as built by `Ingestion.compute_result`. -/
structure IngestionResult where
  predictions : PredMap
  num_predictions : ℕ

/-- `Ingestion.compute_result` (ingestion.py lines 220-236): zip test grain
ids with predictions positionally, assign into a fresh dict, and record the
dict plus its size. -/
def compute_result (test_grain_ids : List String) (predictions : List Int) :
    IngestionResult :=
  let result := (test_grain_ids.zip predictions).foldl
    (fun d gp => dictInsert d gp.1 gp.2) []
  ⟨result, result.length⟩

/-- `Ingestion.save_result` (ingestion.py lines 238-251): the content of
`result.json` as it re-parses — the ingestion-result dict serialised with
the prediction map as a nested object. -/
def save_result (r : IngestionResult) : Json :=
  .jobj [("predictions", .jobj (r.predictions.map (fun gv => (gv.1, Json.jint gv.2)))),
         ("num_predictions", Json.jint r.num_predictions)]

/-- The Python error raised by `None.total_seconds()` in `save_duration`. -/
inductive PyError where
  | attributeErrorOnNone

/-- The ingestion timer state: wall-clock instants in seconds (idealised as
rationals), `none` before `start_timer` / `stop_timer` run. -/
structure IngestionTimer where
  start_time : Option ℚ
  end_time : Option ℚ

/-- `Ingestion.get_duration` (ingestion.py lines 55-70): `none` plus a
printed diagnostic when the timer was never started or never stopped,
otherwise the elapsed time.  The second component models stdout. -/
def get_duration (t : IngestionTimer) : Option ℚ × List String :=
  match t.start_time with
  | none => (none, ["[-] Timer was never started. Returning None"])
  | some s =>
    match t.end_time with
    | none => (none, ["[-] Timer was never stopped. Returning None"])
    | some e => (some (e - s), [])

/-- `Ingestion.save_duration` (ingestion.py lines 72-84): the line
`duration_in_mins = int(duration.total_seconds() / 60)` runs BEFORE the
`if duration is not None` guard, so a `none` duration raises
`AttributeError`; otherwise the persisted value is the whole-minute count
written to `ingestion_duration.json`. -/
def save_duration (t : IngestionTimer) : Except PyError Int :=
  match (get_duration t).1 with
  | none => .error .attributeErrorOnNone
  | some dur => .ok (pyInt (dur / 60))

/-! ## Helper lemmas: the scoring loop -/

theorem scoreCounts_go (reference_data pred : PredMap) (c t m : ℕ) :
    pred.foldl (scoreStep reference_data) (c, t, m) =
      (c + specCorrect pred reference_data, t + specTotal pred reference_data,
       m + specMissing pred reference_data) := by
  induction pred generalizing c t m with
  | nil => simp [specCorrect, specTotal, specMissing]
  | cons gp rest ih =>
    rcases h : reference_data.lookup gp.1 with _ | tv
    · simp only [List.foldl_cons, scoreStep, h, ih, specCorrect, specTotal, specMissing,
        List.countP_cons, h]
      simp [h]
      omega
    · by_cases hv : gp.2 = tv
      · simp only [List.foldl_cons, scoreStep, h, ih, specCorrect, specTotal, specMissing,
          List.countP_cons]
        simp [h, hv]
        omega
      · simp only [List.foldl_cons, scoreStep, h, ih, specCorrect, specTotal, specMissing,
          List.countP_cons]
        simp [h, hv]
        omega

theorem pyRound_zero (n : ℕ) : pyRound 0 n = 0 := by
  simp [pyRound, roundHalfEven]

theorem scoreCounts_eq (pred reference_data : PredMap) :
    scoreCounts pred reference_data =
      (specCorrect pred reference_data, specTotal pred reference_data,
       specMissing pred reference_data) := by
  simpa using scoreCounts_go reference_data pred 0 0 0

/-! ## Helper lemmas: Python dict insertion -/

theorem mem_keys_dictInsert {α : Type} (d : List (String × α)) (k x : String) (v : α) :
    x ∈ (dictInsert d k v).map Prod.fst ↔ x ∈ d.map Prod.fst ∨ x = k := by
  induction d with
  | nil => simp [dictInsert]
  | cons kv rest ih =>
    by_cases h : kv.1 = k
    · rcases kv with ⟨k', v'⟩
      simp only at h
      simp [dictInsert, h]
      tauto
    · rcases kv with ⟨k', v'⟩
      simp only at h
      simp [dictInsert, h, ih]
      tauto

theorem keys_nodup_dictInsert {α : Type} (d : List (String × α)) (k : String) (v : α)
    (h : (d.map Prod.fst).Nodup) : ((dictInsert d k v).map Prod.fst).Nodup := by
  induction d with
  | nil => simp [dictInsert]
  | cons kv rest ih =>
    rcases kv with ⟨k', v'⟩
    simp only [List.map_cons, List.nodup_cons] at h
    by_cases hk : k' = k
    · subst hk
      simp only [dictInsert, eq_self_iff_true, if_true, List.map_cons, List.nodup_cons]
      exact h
    · simp only [dictInsert, hk, if_false, List.map_cons, List.nodup_cons]
      refine ⟨?_, ih h.2⟩
      rw [mem_keys_dictInsert]
      rintro (hm | hm)
      · exact h.1 hm
      · exact hk hm

theorem dictInsert_of_not_mem {α : Type} (d : List (String × α)) (k : String) (v : α)
    (h : k ∉ d.map Prod.fst) : dictInsert d k v = d ++ [(k, v)] := by
  induction d with
  | nil => rfl
  | cons kv rest ih =>
    rcases kv with ⟨k', v'⟩
    simp only [List.map_cons, List.mem_cons] at h
    push_neg at h
    have hne : ¬ k' = k := fun he => h.1 he.symm
    simp only [dictInsert, if_neg hne, ih h.2, List.cons_append]

theorem foldl_dictInsert_nodup {α : Type} (pairs : List (String × α)) (d : List (String × α))
    (h : (d.map Prod.fst).Nodup) :
    ((pairs.foldl (fun d gp => dictInsert d gp.1 gp.2) d).map Prod.fst).Nodup := by
  induction pairs generalizing d with
  | nil => exact h
  | cons gp rest ih => exact ih _ (keys_nodup_dictInsert d gp.1 gp.2 h)

theorem foldl_dictInsert_of_fresh {α : Type} (pairs : List (String × α))
    (d : List (String × α)) (hn : (pairs.map Prod.fst).Nodup)
    (hf : ∀ x ∈ pairs.map Prod.fst, x ∉ d.map Prod.fst) :
    pairs.foldl (fun d gp => dictInsert d gp.1 gp.2) d = d ++ pairs := by
  induction pairs generalizing d with
  | nil => simp
  | cons gp rest ih =>
    simp only [List.map_cons, List.nodup_cons] at hn
    have hg : gp.1 ∉ d.map Prod.fst := hf gp.1 (by simp)
    simp only [List.foldl_cons, dictInsert_of_not_mem d gp.1 gp.2 hg]
    rw [ih (d ++ [(gp.1, gp.2)]) hn.2]
    · simp
    · intro x hx
      simp only [List.map_append, List.mem_append, List.map_cons, List.map_nil,
        List.mem_singleton, List.mem_cons]
      rintro (hm | hm)
      · exact hf x (by simp [hx]) hm
      · rcases hm with hm | hm
        · exact hn.1 (hm ▸ hx)
        · simp at hm

/-! ## Helper lemmas: JSON encode/decode -/

theorem decodePredictions_encode (l : PredMap) :
    decodePredictions (.jobj (l.map (fun gv => (gv.1, Json.jint gv.2)))) = l := by
  induction l with
  | nil => rfl
  | cons gv rest ih =>
    simp only [decodePredictions, List.map_cons, List.filterMap_cons] at ih ⊢
    simpa using ih

/-! ## Claims -/

/-- C1 (amended): for nonempty prediction and reference maps (prediction keys
distinct, so entries are grain_ids), `compute_scores` stores
`correct` = number of grain_ids present in both maps with equal predicted
and true variety, `total` = number of grain_ids present in both maps
(grain_ids absent from the reference map contribute to neither), and
`score` = `correct/total` ROUNDED HALF-TO-EVEN TO 6 DECIMAL PLACES when
`total > 0` and `0.0` otherwise; on the example maps this yields
`correct = 1`, `total = 2`, `score = 0.5`. -/
theorem compute_scores_spec (pred ref : PredMap) (hp : pred ≠ []) (hr : ref ≠ [])
    (hkeys : (pred.map Prod.fst).Nodup) :
    compute_scores (some pred) (some ref) =
      [("score", Json.jnum (if 0 < specTotal pred ref
          then pyRound ((specCorrect pred ref : ℚ) / (specTotal pred ref : ℚ)) 6 else 0)),
       ("correct", Json.jint (specCorrect pred ref)),
       ("total", Json.jint (specTotal pred ref)),
       ("accuracy_percent", Json.jnum (pyRound ((if 0 < specTotal pred ref
          then (specCorrect pred ref : ℚ) / (specTotal pred ref : ℚ) else 0) * 100) 2))] ∧
    compute_scores (some [("7", 3), ("9", 2), ("5", 3)]) (some [("7", 3), ("9", 1)]) =
      [("score", Json.jnum ((1 : ℚ)/2)), ("correct", Json.jint 1), ("total", Json.jint 2),
       ("accuracy_percent", Json.jnum 50)] := by
  constructor
  · cases pred with
    | nil => exact absurd rfl hp
    | cons gp0 rest =>
      cases ref with
      | nil => exact absurd rfl hr
      | cons r0 refRest =>
        simp only [compute_scores, pyTruthy, List.isEmpty_cons, Bool.not_false,
          Bool.true_eq_false, if_false, scoreCounts_eq, Option.getD_some]
        by_cases ht : 0 < specTotal (gp0 :: rest) (r0 :: refRest) <;>
          simp [ht, pyRound_zero]
  · with_unfolding_all rfl

/-- C1 witness: the spec's own example discharges every hypothesis. -/
theorem compute_scores_spec_witness :
    ([("7", 3), ("9", 2), ("5", 3)] : PredMap) ≠ [] ∧
    compute_scores (some [("7", 3), ("9", 2), ("5", 3)]) (some [("7", 3), ("9", 1)]) =
      [("score", Json.jnum ((1 : ℚ)/2)), ("correct", Json.jint 1), ("total", Json.jint 2),
       ("accuracy_percent", Json.jnum 50)] :=
  ⟨by decide,
   (compute_scores_spec [("7", 3), ("9", 2), ("5", 3)] [("7", 3), ("9", 1)]
      (by decide) (by decide) (by decide)).2⟩

/-- C1 counterexample: for predictions `{1:0, 2:1, 3:1}` and reference
`{1:0, 2:0, 3:0}` the code stores `correct = 1`, `total = 3`, but
`score = round(1/3, 6) = 0.333333`, which is NOT `correct/total = 1/3`:
the claim's `score = correct/total` fails because of the 6-decimal
rounding in the source. -/
theorem compute_scores_counterexample :
    compute_scores (some [("1", 0), ("2", 1), ("3", 1)])
        (some [("1", 0), ("2", 0), ("3", 0)]) =
      [("score", Json.jnum (mkRat 333333 1000000)), ("correct", Json.jint 1),
       ("total", Json.jint 3), ("accuracy_percent", Json.jnum (mkRat 3333 100))] ∧
    mkRat 333333 1000000 ≠ mkRat 1 3 ∧ (mkRat 1 3 : ℚ) = (1 : ℚ)/3 := by
  refine ⟨by with_unfolding_all rfl, by decide, by with_unfolding_all rfl⟩

/-- C2 (amended): when both maps are truthy (present and nonempty) the score
record has exactly the four fields `score, correct, total,
accuracy_percent`; when either map is missing or empty, the run
short-circuits WITHOUT raising to a record holding ONLY `score = 0.0` —
the other three fields are absent there, contrary to the claim. -/
theorem compute_scores_fields (ing ref : Option PredMap) :
    ((pyTruthy ing = false ∨ pyTruthy ref = false) →
      compute_scores ing ref = [("score", Json.jnum 0)]) ∧
    (pyTruthy ing = true → pyTruthy ref = true →
      (compute_scores ing ref).map Prod.fst =
        ["score", "correct", "total", "accuracy_percent"]) := by
  constructor
  · intro h
    rcases h with h | h
    · simp [compute_scores, h]
    · cases hi : pyTruthy ing <;> simp [compute_scores, h, hi]
  · intro hi hr
    simp [compute_scores, hi, hr]

/-- C2 witness: a short-circuiting run and a complete run, concretely. -/
theorem compute_scores_fields_witness :
    compute_scores (some [("7", 3)]) none = [("score", Json.jnum 0)] ∧
    (compute_scores (some [("7", 3)]) (some [("9", 1)])).map Prod.fst =
      ["score", "correct", "total", "accuracy_percent"] :=
  ⟨(compute_scores_fields (some [("7", 3)]) none).1 (Or.inr rfl),
   (compute_scores_fields (some [("7", 3)]) (some [("9", 1)])).2 rfl rfl⟩

/-- C2 counterexample: a run with a missing prediction map yields a record
with only the `score` field; `correct`, `total` and `accuracy_percent`
are absent, so not every run produces all four fields. -/
theorem compute_scores_fields_counterexample :
    compute_scores none (some [("7", 3)]) = [("score", Json.jnum 0)] ∧
    (compute_scores none (some [("7", 3)])).lookup "correct" = none ∧
    (compute_scores none (some [("7", 3)])).lookup "total" = none ∧
    (compute_scores none (some [("7", 3)])).lookup "accuracy_percent" = none := by
  refine ⟨rfl, rfl, rfl, rfl⟩

/-- C4 (amended): `compute_result` pairs test grain_ids with predictions in
stable positional order and its map always has unique keys with
`num_predictions` equal to the number of entries; when the test grain_ids
are pairwise distinct and there are as many predictions as grain_ids, the
map is exactly the positional zip — one entry per test sample. (Duplicate
grain_ids collapse onto one entry, so "exactly one entry per test sample"
holds only under the distinctness hypothesis.) -/
theorem compute_result_spec (ids : List String) (preds : List Int) :
    ((compute_result ids preds).predictions.map Prod.fst).Nodup ∧
    (compute_result ids preds).num_predictions =
      (compute_result ids preds).predictions.length ∧
    (ids.Nodup → ids.length = preds.length →
      (compute_result ids preds).predictions = ids.zip preds) := by
  refine ⟨foldl_dictInsert_nodup _ [] (by simp), rfl, ?_⟩
  intro hnd hlen
  have hkeys : ((ids.zip preds).map Prod.fst).Nodup := by
    rw [List.map_fst_zip ids preds (le_of_eq hlen)]
    exact hnd
  have := foldl_dictInsert_of_fresh (ids.zip preds) [] hkeys (by simp)
  simpa [compute_result] using this

/-- C4 witness: distinct ids ["7", "9"] with two predictions give the zip. -/
theorem compute_result_spec_witness :
    (["7", "9"] : List String).Nodup ∧
    (compute_result ["7", "9"] [3, 1]).predictions = (["7", "9"].zip [3, 1]) :=
  ⟨by decide, (compute_result_spec ["7", "9"] [3, 1]).2.2 (by decide) rfl⟩

/-- C4 counterexample: two test samples sharing grain_id "7" (as arises from
per-year files of the same grain) collapse to ONE map entry, so the map
does not have exactly one entry per test sample. -/
theorem compute_result_counterexample :
    (compute_result ["7", "7"] [1, 2]).predictions = [("7", 2)] ∧
    (compute_result ["7", "7"] [1, 2]).num_predictions = 1 ∧
    (["7", "7"] : List String).length = 2 ∧ (1 : ℕ) ≠ 2 :=
  ⟨rfl, rfl, rfl, by decide⟩

/-- C9: writing `result.json` with `save_result` and reading it with
`load_ingestion_result` yields exactly the prediction map that was
written, and every field recorded in `scores.json` by `write_scores` reads
back unchanged. -/
theorem round_trip_spec :
    (∀ r : IngestionResult,
      load_ingestion_result (some (save_result r)) = .ok r.predictions) ∧
    (∀ (scores_dict : List (String × Json)) (k : String),
      jsonField (write_scores scores_dict) k = scores_dict.lookup k) := by
  constructor
  · intro r
    simp [load_ingestion_result, save_result, jsonField, List.lookup,
      decodePredictions_encode]
  · intro sd k
    rfl

/-! ## Helper lemmas: grain-id parsing -/

theorem takeWhile_append_underscore (l1 l2 : List Char) (h : ('_' : Char) ∉ l1) :
    (l1 ++ '_' :: l2).takeWhile (fun c => c != '_') = l1 := by
  induction l1 with
  | nil => simp [List.takeWhile_cons]
  | cons c cs ih =>
    simp only [List.mem_cons] at h
    push_neg at h
    have hc : (c != '_') = true := by
      simp [bne]
      exact fun he => h.1 he.symm
    simp [List.takeWhile_cons, hc, ih h.2]

theorem replaceGrainAux_no_occ (fuel : ℕ) (l : List Char)
    (h : containsGrain l = false) : replaceGrainAux fuel l = l := by
  induction fuel generalizing l with
  | zero => rfl
  | succ n ih =>
    cases l with
    | nil => rfl
    | cons c cs =>
      simp only [containsGrain, Bool.or_eq_false_iff] at h
      simp [replaceGrainAux, h.1, ih cs h.2]

theorem replaceGrain_strips_front (rest : List Char) (h : containsGrain rest = false) :
    replaceGrain ('g' :: 'r' :: 'a' :: 'i' :: 'n' :: rest) = rest := by
  show replaceGrainAux (rest.length + 1 + 1 + 1 + 1 + 1) _ = rest
  rw [show replaceGrainAux (rest.length + 1 + 1 + 1 + 1 + 1)
        ('g' :: 'r' :: 'a' :: 'i' :: 'n' :: rest) =
      replaceGrainAux (rest.length + 1 + 1 + 1 + 1) rest from by
    simp [replaceGrainAux, startsWithGrain]]
  exact replaceGrainAux_no_occ _ rest h

/-! ## Claims: grain-id parsing and timer -/

/-- C8 (amended): the recorded grain_id is the text before the first
underscore with EVERY occurrence of the literal `'grain'` removed
(`str.replace` replaces all occurrences, not only a front prefix); when
the token is `'grain'` followed by a remainder containing no further
occurrence of `'grain'`, this agrees with the spec's "prefix stripped,
rest preserved" reading. -/
theorem grainId_spec (rest tail : List Char) (h1 : containsGrain rest = false)
    (h2 : ('_' : Char) ∉ rest) :
    grainId (String.mk ('g' :: 'r' :: 'a' :: 'i' :: 'n' :: (rest ++ '_' :: tail))) =
      String.mk rest ∧
    specGrainId (String.mk ('g' :: 'r' :: 'a' :: 'i' :: 'n' :: (rest ++ '_' :: tail))) =
      String.mk rest := by
  have hno : ('_' : Char) ∉ ('g' :: 'r' :: 'a' :: 'i' :: 'n' :: rest) := by
    intro hm
    simp only [List.mem_cons] at hm
    rcases hm with h | h | h | h | h | h
    · exact absurd h (by decide)
    · exact absurd h (by decide)
    · exact absurd h (by decide)
    · exact absurd h (by decide)
    · exact absurd h (by decide)
    · exact h2 h
  have htok : (('g' :: 'r' :: 'a' :: 'i' :: 'n' :: (rest ++ '_' :: tail)).takeWhile
      (fun c => c != '_')) = 'g' :: 'r' :: 'a' :: 'i' :: 'n' :: rest := by
    have := takeWhile_append_underscore ('g' :: 'r' :: 'a' :: 'i' :: 'n' :: rest) tail hno
    simpa using this
  constructor
  · show String.mk (replaceGrain _) = String.mk rest
    rw [show (String.mk ('g' :: 'r' :: 'a' :: 'i' :: 'n' :: (rest ++ '_' :: tail))).data =
        'g' :: 'r' :: 'a' :: 'i' :: 'n' :: (rest ++ '_' :: tail) from rfl, htok,
      replaceGrain_strips_front rest h1]
  · show String.mk (specStripGrain _) = String.mk rest
    rw [show (String.mk ('g' :: 'r' :: 'a' :: 'i' :: 'n' :: (rest ++ '_' :: tail))).data =
        'g' :: 'r' :: 'a' :: 'i' :: 'n' :: (rest ++ '_' :: tail) from rfl, htok]
    rfl

/-- C8 witness: filename `grain7_a` yields grain_id `7`. -/
theorem grainId_spec_witness :
    containsGrain ['7'] = false ∧
    grainId (String.mk ('g' :: 'r' :: 'a' :: 'i' :: 'n' :: (['7'] ++ '_' :: ['a']))) =
      String.mk ['7'] :=
  ⟨by decide, (grainId_spec ['7'] ['a'] (by decide) (by decide)).1⟩

/-- C8 counterexample: for filename `xgrain1_a.npz` the token before the
first underscore is `xgrain1`; the code removes the interior occurrence of
`'grain'` and records `x1`, whereas the claim (strip the prefix `'grain'`
from the front, rest preserved unchanged) predicts `xgrain1`. -/
theorem grainId_counterexample :
    grainId "xgrain1_a.npz" = "x1" ∧ specGrainId "xgrain1_a.npz" = "xgrain1" ∧
    ("x1" : String) ≠ "xgrain1" := by
  refine ⟨by with_unfolding_all rfl, by with_unfolding_all rfl, by decide⟩

/-- C7: calling `get_duration` before the timer ran yields a null result
with a diagnostic message, but `save_duration` in the same state RAISES
(`None.total_seconds()` is evaluated before the `is not None` guard);
after a start/stop the persisted duration is the elapsed wall-clock time
truncated to whole minutes. -/
theorem save_duration_spec :
    get_duration ⟨none, none⟩ = (none, ["[-] Timer was never started. Returning None"]) ∧
    save_duration ⟨none, none⟩ = .error .attributeErrorOnNone ∧
    ∀ s e : ℚ, save_duration ⟨some s, some e⟩ = .ok (pyInt ((e - s) / 60)) :=
  ⟨rfl, rfl, fun _ _ => rfl⟩

/-! ## Helper lemmas: file loading -/

theorem loadNpzFiles_X {α : Type} (fs : String → Option (Npz α)) (files : List String)
    (b : Bool) :
    (loadNpzFiles fs files b).X = files.filterMap (fun f => (fs f).map Npz.x) := by
  induction files with
  | nil => rfl
  | cons f rest ih =>
    rcases h : fs f with _ | d <;> simp [loadNpzFiles, h, ih]

theorem loadNpzFiles_grain_ids {α : Type} (fs : String → Option (Npz α))
    (files : List String) (b : Bool) :
    (loadNpzFiles fs files b).grain_ids =
      (files.filter (fun f => (fs f).isSome)).map grainId := by
  induction files with
  | nil => rfl
  | cons f rest ih =>
    rcases h : fs f with _ | d <;> simp [loadNpzFiles, h, ih, List.filter_cons]

theorem loadNpzFiles_zip {α : Type} (fs : String → Option (Npz α)) (files : List String)
    (b : Bool) :
    (loadNpzFiles fs files b).X.zip (loadNpzFiles fs files b).grain_ids =
      files.filterMap (fun f => (fs f).map (fun d => (d.x, grainId f))) := by
  induction files with
  | nil => rfl
  | cons f rest ih =>
    rcases h : fs f with _ | d <;> simp [loadNpzFiles, h, ih]

theorem loadNpzFiles_length {α : Type} (fs : String → Option (Npz α)) (files : List String)
    (b : Bool) :
    (loadNpzFiles fs files b).X.length = (loadNpzFiles fs files b).grain_ids.length := by
  induction files with
  | nil => rfl
  | cons f rest ih =>
    rcases h : fs f with _ | d <;> simp [loadNpzFiles, h, ih]

theorem loadBody_of_test_nonempty {α : Type} (fs : String → Option (Npz α))
    (listing : List String) (df : List (String × Int))
    (hne : (testFilesOf listing df).isEmpty = false) :
    loadBody fs listing df =
      ⟨(loadNpzFiles fs (manifestFiles df) false).X,
       (df.map Prod.snd).take (loadNpzFiles fs (manifestFiles df) false).X.length,
       (loadNpzFiles fs (manifestFiles df) false).grain_ids,
       (loadNpzFiles fs (testFilesOf listing df) false).X,
       (loadNpzFiles fs (testFilesOf listing df) false).grain_ids⟩ := by
  simp [loadBody, hne]

/-! ## Claims: data loading -/

/-- C10: `_load_npz_files` returns as many images as grain ids; each
successfully loaded file contributes exactly one image and one grain id,
a missing or failing file contributes neither, and images align
positionally with grain ids. -/
theorem loadNpzFiles_spec (α : Type) (fs : String → Option (Npz α)) (files : List String)
    (b : Bool) :
    (loadNpzFiles fs files b).X.length = (loadNpzFiles fs files b).grain_ids.length ∧
    (loadNpzFiles fs files b).X = files.filterMap (fun f => (fs f).map Npz.x) ∧
    (loadNpzFiles fs files b).grain_ids =
      (files.filter (fun f => (fs f).isSome)).map grainId ∧
    (loadNpzFiles fs files b).X.zip (loadNpzFiles fs files b).grain_ids =
      files.filterMap (fun f => (fs f).map (fun d => (d.x, grainId f))) :=
  ⟨loadNpzFiles_length fs files b, loadNpzFiles_X fs files b,
   loadNpzFiles_grain_ids fs files b, loadNpzFiles_zip fs files b⟩

/-- C5: an absent manifest fails with the missing-manifest error, while a
file that is missing or fails to load is simply skipped — the remaining
files still load and the run completes normally. -/
theorem load_error_spec :
    (∀ (α : Type) (fs : String → Option (Npz α)) (listing : List String),
      load_train_and_test_data none fs listing = .error .missingManifest) ∧
    (∀ (α : Type) (fs : String → Option (Npz α)) (files : List String) (f : String)
        (b : Bool), fs f = none → loadNpzFiles fs (f :: files) b = loadNpzFiles fs files b) ∧
    (∀ (α : Type) (fs : String → Option (Npz α)) (listing : List String)
        (df : List (String × Int)),
      load_train_and_test_data (some df) fs listing = .ok (loadBody fs listing df)) := by
  refine ⟨fun α fs listing => rfl, ?_, fun α fs listing df => rfl⟩
  intro α fs files f b h
  simp [loadNpzFiles, h]

/-- C5 witness: a directory whose only listed file fails to load. -/
theorem load_error_spec_witness :
    load_train_and_test_data (α := ℕ) none (fun _ => none) [] =
      .error .missingManifest ∧
    loadNpzFiles (α := ℕ) (fun _ => none) ["grain1_x.npz"] false =
      loadNpzFiles (fun _ => none) [] false :=
  ⟨load_error_spec.1 ℕ (fun _ => none) [],
   load_error_spec.2.1 ℕ (fun _ => none) [] "grain1_x.npz" false rfl⟩

/-- C6: when no discovered `.npz` file falls outside the manifest, the test
set is exactly the training set (placeholder fallback). -/
theorem fallback_spec (α : Type) (fs : String → Option (Npz α)) (listing : List String)
    (df : List (String × Int)) (h : testFilesOf listing df = []) :
    load_train_and_test_data (some df) fs listing = .ok (loadBody fs listing df) ∧
    (loadBody fs listing df).test_X = (loadBody fs listing df).train_X ∧
    (loadBody fs listing df).test_grain_ids = (loadBody fs listing df).train_grain_ids := by
  refine ⟨rfl, ?_, ?_⟩ <;> simp [loadBody, h]

/-- C6 witness: a directory where the single `.npz` file is listed in the
manifest, so there are no dedicated test files. -/
theorem fallback_spec_witness :
    testFilesOf ["grain1_x.npz"] [("grain1_x.npz", 3)] = [] ∧
    (loadBody (α := ℕ) (fun _ => some ⟨0, none⟩) ["grain1_x.npz"]
        [("grain1_x.npz", 3)]).test_grain_ids =
      (loadBody (fun _ => some ⟨0, none⟩) ["grain1_x.npz"]
        [("grain1_x.npz", 3)]).train_grain_ids :=
  ⟨by decide,
   (fallback_spec ℕ (fun _ => some ⟨0, none⟩) ["grain1_x.npz"] [("grain1_x.npz", 3)]
      (by decide)).2.2⟩

/-- C3 (amended): when every file listed in the manifest loads successfully
and dedicated test files exist, each listed filename becomes a training
sample in manifest order with the manifest's label column aligned to it,
the test samples are exactly the successfully loading discovered `.npz`
files outside the manifest, and no test file is listed in the manifest.
(When a listed file fails to load, it yields no training sample and the
truncated label column shifts onto later samples — see the
counterexample.) -/
theorem load_partition_spec (α : Type) (fs : String → Option (Npz α))
    (listing : List String) (df : List (String × Int))
    (hload : ∀ f ∈ manifestFiles df, (fs f).isSome = true)
    (htest : testFilesOf listing df ≠ []) :
    (loadBody fs listing df).train_grain_ids = (manifestFiles df).map grainId ∧
    (loadBody fs listing df).train_y = df.map Prod.snd ∧
    (loadBody fs listing df).test_grain_ids =
      ((testFilesOf listing df).filter (fun f => (fs f).isSome)).map grainId ∧
    (∀ f ∈ testFilesOf listing df, f ∉ manifestFiles df) := by
  have hne : (testFilesOf listing df).isEmpty = false := by
    rcases h' : testFilesOf listing df with _ | ⟨a, l⟩
    · exact absurd h' htest
    · rfl
  have hfilter : (manifestFiles df).filter (fun f => (fs f).isSome) = manifestFiles df :=
    List.filter_eq_self.mpr hload
  have hids : (loadNpzFiles fs (manifestFiles df) false).grain_ids =
      (manifestFiles df).map grainId := by
    rw [loadNpzFiles_grain_ids, hfilter]
  have hlen : (loadNpzFiles fs (manifestFiles df) false).X.length = df.length := by
    rw [loadNpzFiles_length, hids, List.length_map, manifestFiles, List.length_map]
  rw [loadBody_of_test_nonempty fs listing df hne]
  refine ⟨hids, ?_, loadNpzFiles_grain_ids fs _ false, ?_⟩
  · show (df.map Prod.snd).take _ = df.map Prod.snd
    rw [hlen, show df.length = (df.map Prod.snd).length from (List.length_map _ _).symm,
      List.take_length]
  · intro f hf
    simp only [testFilesOf, List.mem_filter, Bool.not_eq_eq_eq_not, Bool.not_true] at hf
    intro hmem
    rcases hf with ⟨-, hc⟩
    rw [show (manifestFiles df).contains f = List.elem f (manifestFiles df) from rfl,
      List.elem_eq_mem] at hc
    simp [hmem] at hc

/-- C3 witness: a two-file manifest whose files both load, plus one
unlisted test file. -/
theorem load_partition_spec_witness :
    testFilesOf ["grain1_x.npz", "grain2_x.npz", "grain3_x.npz"]
        [("grain1_x.npz", 3), ("grain2_x.npz", 1)] ≠ [] ∧
    (loadBody (α := ℕ) (fun _ => some ⟨0, none⟩)
        ["grain1_x.npz", "grain2_x.npz", "grain3_x.npz"]
        [("grain1_x.npz", 3), ("grain2_x.npz", 1)]).train_y = [3, 1] :=
  ⟨by decide,
   (load_partition_spec ℕ (fun _ => some ⟨0, none⟩)
      ["grain1_x.npz", "grain2_x.npz", "grain3_x.npz"]
      [("grain1_x.npz", 3), ("grain2_x.npz", 1)]
      (by intro f hf; rfl) (by decide)).2.1⟩

/-- C3 counterexample: manifest rows `a.npz ↦ 1`, `b.npz ↦ 2` where `a.npz`
fails to load: `a.npz` yields no training sample, and the surviving sample
`b.npz` receives label 1 (the truncated label column) although the
manifest lists 2 for it — listed filenames do not all become training
samples carrying their own manifest label. -/
theorem load_partition_counterexample :
    (loadBody (fun f => if f = "a.npz" then none else some (⟨0, none⟩ : Npz ℕ))
        ["a.npz", "b.npz", "c.npz"] [("a.npz", 1), ("b.npz", 2)]).train_grain_ids =
      ["b.npz"] ∧
    (loadBody (fun f => if f = "a.npz" then none else some (⟨0, none⟩ : Npz ℕ))
        ["a.npz", "b.npz", "c.npz"] [("a.npz", 1), ("b.npz", 2)]).train_y = [1] ∧
    List.lookup "b.npz" [("a.npz", 1), ("b.npz", 2)] = some 2 ∧ (1 : ℤ) ≠ 2 := by
  refine ⟨by with_unfolding_all rfl, by with_unfolding_all rfl, rfl, by decide⟩

end GrainChallenge
